import Mathlib

/-!
Verification of the double-entry transaction-entry grid of
`frontend/src/pages/SaisieEcritures.tsx`: the flat line sequence with
header/detail grouping, balance totals, the auto-balance operation,
keyboard navigation, and submission grouping.  JavaScript numbers are
modelled as `Option ℚ` (with `none` playing the role of `NaN`), strings
as Lean `String`, and the React `useState` mutations as explicit state
passing (each handler is a function from the captured render state to
the final committed state).
-/

namespace SaisieEcritures

/-- JS number model: `none` stands for `NaN`; every other value is an exact
rational (binary-double rounding is abstracted away). -/
abbrev JsNum := Option ℚ

/-- JS `+` : `NaN` is absorbing. -/
def jsAdd : JsNum → JsNum → JsNum
  | some a, some b => some (a + b)
  | _, _ => none

/-- JS `-` : `NaN` is absorbing. -/
def jsSub : JsNum → JsNum → JsNum
  | some a, some b => some (a - b)
  | _, _ => none

/-- JS `Math.abs`. -/
def jsAbs : JsNum → JsNum
  | some a => some |a|
  | none => none

/-- JS `x < c` for a rational constant `c`: any comparison with `NaN` is false. -/
def jsLtC (x : JsNum) (c : ℚ) : Bool :=
  match x with
  | some a => decide (a < c)
  | none => false

/-- JS `x > 0`: false on `NaN`. -/
def jsGtZ (x : JsNum) : Bool :=
  match x with
  | some a => decide (0 < a)
  | none => false

/-- Longest leading run of decimal digits of a character list, with the rest. -/
def takeDigits : List Char → List Char × List Char
  | [] => ([], [])
  | c :: cs =>
    if c.isDigit then
      let p := takeDigits cs
      (c :: p.1, p.2)
    else ([], c :: cs)

/-- Value of a list of decimal digit characters, most significant first. -/
def digitsVal (ds : List Char) : Nat :=
  ds.foldl (fun a c => 10 * a + (c.toNat - 48)) 0

/-- Sign/integer-part/fraction-part/exponent decomposition produced by scanning
a JS float literal. The denoted value is
`sign * (ipart + fpart / 10 ^ flen) * 10 ^ exp`. -/
structure FloatParts where
  sign : Int
  ipart : Nat
  fpart : Nat
  flen : Nat
  exp : Int
deriving DecidableEq, Repr

/-- Exponent suffix of a JS float literal (`e`/`E`, optional sign, digits);
`0` when absent or malformed (in which case JS stops the prefix parse there). -/
def scanExpVal (cs : List Char) : Int :=
  match cs with
  | 'e' :: rest | 'E' :: rest =>
    let p :=
      match rest with
      | '-' :: r => ((-1 : Int), r)
      | '+' :: r => ((1 : Int), r)
      | r => ((1 : Int), r)
    let ds := (takeDigits p.2).1
    if ds.isEmpty then 0 else p.1 * (digitsVal ds : Int)
  | _ => 0

/-- Optional leading sign of a JS float literal. -/
def signSplit : List Char → Int × List Char
  | '-' :: r => (-1, r)
  | '+' :: r => (1, r)
  | r => (1, r)

/-- Optional fraction part (`.` followed by digits) of a JS float literal. -/
def fracSplit : List Char → List Char × List Char
  | '.' :: r => takeDigits r
  | r => ([], r)

/-- Scanner behind JS `parseFloat`: skip whitespace, optional sign, digits,
optional `.` and fraction digits, optional exponent; the longest valid prefix
counts and `none` (`NaN`) results only when no digit was consumed.
(`Infinity` literals and exotic whitespace are outside the model.) -/
def scanFloat (cs0 : List Char) : Option FloatParts :=
  let cs1 := cs0.dropWhile fun c => c == ' ' || c == '\t' || c == '\n' || c == '\r'
  let ps := signSplit cs1
  let pi := takeDigits ps.2
  let pf := fracSplit pi.2
  if pi.1.isEmpty && pf.1.isEmpty then none
  else
    some { sign := ps.1, ipart := digitsVal pi.1, fpart := digitsVal pf.1,
           flen := pf.1.length, exp := scanExpVal pf.2 }

/-- Rational value denoted by scanned float parts. -/
def FloatParts.val (p : FloatParts) : ℚ :=
  (p.sign : ℚ) * ((p.ipart : ℚ) + (p.fpart : ℚ) / 10 ^ p.flen) * (10 : ℚ) ^ p.exp

/-- Model of JS `parseFloat` on the decimal fragment. -/
def parseFloat (s : String) : JsNum :=
  (scanFloat s.data).map FloatParts.val

/-- Models `parseFloat(field || '0')` as used for amount fields: the empty
string (the only falsy string) is replaced by `'0'` before parsing. -/
def parseField (s : String) : JsNum :=
  if s = "" then some 0 else parseFloat s

/-- Decimal digit characters of `n`, most significant first, via explicit
fuel (`n + 1` suffices). -/
def natDecF : Nat → Nat → List Char
  | 0, _ => []
  | fuel + 1, n =>
    if n < 10 then [Nat.digitChar n]
    else natDecF fuel (n / 10) ++ [Nat.digitChar (n % 10)]

/-- Decimal rendering of a natural number. -/
def natDec (n : Nat) : List Char := natDecF (n + 1) n

/-- Model of JS `x.toFixed(2)`: round `|x| * 100` to the nearest integer
(half up), print with exactly two fraction digits and a sign taken from `x`;
`NaN` prints as `"NaN"`. -/
def toFixed2 (x : JsNum) : String :=
  match x with
  | none => "NaN"
  | some q =>
    let n : Nat := (round (|q| * 100)).toNat
    let sgn : List Char := if q < 0 then ['-'] else []
    let fd : List Char := if n % 100 < 10 then '0' :: natDec (n % 100) else natDec (n % 100)
    String.mk (sgn ++ natDec (n / 100) ++ '.' :: fd)

example : scanFloat "150".data = some ⟨1, 150, 0, 0, 0⟩ := rfl
example : scanFloat "  -12.75xyz".data = some ⟨-1, 12, 75, 2, 0⟩ := rfl
example : scanFloat ".5e2".data = some ⟨1, 0, 5, 1, 2⟩ := rfl
example : scanFloat "abc".data = none := rfl
example : scanFloat ".".data = none := rfl
example : natDec 1507 = ['1', '5', '0', '7'] := rfl

/-- One row of the flat entry sequence (`interface LigneEcriture`).
The persisted `id` field is never read by the modelled logic and is omitted;
`date` is optional exactly as in the source (only header rows carry one). -/
structure LigneEcriture where
  tempId : String := ""
  date : Option String := none
  compte : String := ""
  compteId : Option Nat := none
  tiers : String := ""
  libelle : String := ""
  debit : String := ""
  credit : String := ""
  piece : String := ""
  isNew : Bool := false
  isHeader : Bool := false
deriving DecidableEq, Repr

/-- Fresh blank line, used as the out-of-bounds default of `List.getD`
(the source would throw on an out-of-bounds row; all theorems keep row
indices in bounds). -/
def blankLigne : LigneEcriture := {}

instance : Inhabited LigneEcriture := ⟨blankLigne⟩

/-- Totals `useEffect` (lines 280–293): fold over the sequence, accumulating
`parseFloat(ligne.debit || '0')` over the non-header lines. -/
def totalDebit (lignes : List LigneEcriture) : JsNum :=
  lignes.foldl (fun acc l => if l.isHeader then acc else jsAdd acc (parseField l.debit)) (some 0)

/-- Credit half of the totals `useEffect`. -/
def totalCredit (lignes : List LigneEcriture) : JsNum :=
  lignes.foldl (fun acc l => if l.isHeader then acc else jsAdd acc (parseField l.credit)) (some 0)

/-- Equilibrium indicator (line 647): `Math.abs(totalDebit - totalCredit) < 0.01`. -/
def equilibre (lignes : List LigneEcriture) : Bool :=
  jsLtC (jsAbs (jsSub (totalDebit lignes) (totalCredit lignes))) (1 / 100)

/-- Spec-side total (from the spec's words, for comparison with `totalDebit`):
sum over non-header lines of the debit field parsed as a decimal, blank or
unparseable text counted as `0`. -/
def specTotalDebit (lignes : List LigneEcriture) : ℚ :=
  ((lignes.filter fun l => !l.isHeader).map fun l => (parseField l.debit).getD 0).sum

/-- Spec-side credit total, analogous to `specTotalDebit`. -/
def specTotalCredit (lignes : List LigneEcriture) : ℚ :=
  ((lignes.filter fun l => !l.isHeader).map fun l => (parseField l.credit).getD 0).sum

/-- Condition of the backward scan in `equilibrerEcriture` (line 303): a
non-header line with a non-empty account, debit or credit field. -/
def touched (l : LigneEcriture) : Bool :=
  !l.isHeader && (l.compte ≠ "" || l.debit ≠ "" || l.credit ≠ "")

/-- Index found by the backward `for` loop of `equilibrerEcriture`
(lines 301–307): the largest index holding a touched line, if any. -/
def lastTouchedIdx (lignes : List LigneEcriture) : Option Nat :=
  (List.range lignes.length).reverse.find? fun i => touched (lignes.getD i blankLigne)

/-- `equilibrerEcriture` (lines 296–323): no-op when the gap test passes or no
line was ever touched; otherwise overwrite the last touched line's credit with
the gap (clearing its debit) when the gap is positive, else its debit with the
absolute gap (clearing its credit). -/
def equilibrerEcriture (lignes : List LigneEcriture) : List LigneEcriture :=
  let ecart := jsSub (totalDebit lignes) (totalCredit lignes)
  if jsLtC (jsAbs ecart) (1 / 100) then lignes
  else
    match lastTouchedIdx lignes with
    | none => lignes
    | some i =>
      let l := lignes.getD i blankLigne
      if jsGtZ ecart then
        lignes.set i { l with credit := toFixed2 ecart, debit := "" }
      else
        lignes.set i { l with debit := toFixed2 (jsAbs ecart), credit := "" }

/-- `addNewEcriture` (lines 121–148): append a header line carrying today's
date followed by one blank detail line; `now` stands for the
`Date.now().toString()` identifier. -/
def addNewEcriture (now today : String) (lignes : List LigneEcriture) : List LigneEcriture :=
  lignes ++
    [{ tempId := now, date := some today, isNew := true, isHeader := true },
     { tempId := now ++ "_1", isNew := true }]

/-- While loop of `addLigneToCurrentEcriture` (lines 164–167): first index
`j ≥ i` holding a header line, or the sequence length if none. -/
def findNextHeader (lignes : List LigneEcriture) (i : Nat) : Nat :=
  if h : i < lignes.length then
    if (lignes.get ⟨i, h⟩).isHeader then i else findNextHeader lignes (i + 1)
  else i
termination_by lignes.length - i

/-- `addLigneToCurrentEcriture` (lines 151–172): insert, at the next header
position after the focused row (or at the end), a fresh line whose only
non-blank field is the description copied from the focused row. -/
def addLigneToCurrentEcriture (now : String) (lignes : List LigneEcriture) (currentRow : Nat) :
    List LigneEcriture :=
  let newLigne : LigneEcriture :=
    { tempId := now, libelle := (lignes.getD currentRow blankLigne).libelle, isNew := true }
  lignes.insertIdx (findNextHeader lignes (currentRow + 1)) newLigne

/-- Editable field names of a line, for `updateCell`. -/
inductive FieldName
  | date | compte | tiers | libelle | debit | credit | piece
deriving DecidableEq, Repr

/-- `newLignes[row] = { ...newLignes[row], [field]: value }`. -/
def setField (l : LigneEcriture) : FieldName → String → LigneEcriture
  | .date, v => { l with date := some v }
  | .compte, v => { l with compte := v }
  | .tiers, v => { l with tiers := v }
  | .libelle, v => { l with libelle := v }
  | .debit, v => { l with debit := v }
  | .credit, v => { l with credit := v }
  | .piece, v => { l with piece := v }

/-- While loop of `updateCell` (lines 254–260): walk the following lines up to
the next header, overwriting the description of each line whose description is
empty or still equal to the header's previous description `oldLib`. -/
def propagateLibelle (oldLib v : String) : List LigneEcriture → List LigneEcriture
  | [] => []
  | l :: ls =>
    if l.isHeader then l :: ls
    else
      (if l.libelle = "" ∨ l.libelle = oldLib then { l with libelle := v } else l) ::
        propagateLibelle oldLib v ls

/-- `updateCell` (lines 248–264): set one field of one row; editing a header
row's description additionally propagates it to the detail rows of the same
transaction via `propagateLibelle`. -/
def updateCell (lignes : List LigneEcriture) (row : Nat) (f : FieldName) (v : String) :
    List LigneEcriture :=
  let base := lignes.set row (setField (lignes.getD row blankLigne) f v)
  if f = FieldName.libelle ∧ (lignes.getD row blankLigne).isHeader = true then
    base.take (row + 1) ++
      propagateLibelle (lignes.getD row blankLigne).libelle v (base.drop (row + 1))
  else base

/-- Chart-of-accounts entry (`interface Compte`). -/
structure Compte where
  id : Nat
  code : String
  libelle : String
  type : String
deriving DecidableEq, Repr

/-- Model of JS `s.startsWith(pre)`: character-level, case-sensitive
prefix test. -/
def startsWith (s pre : String) : Bool :=
  pre.data.isPrefixOf s.data

/-- `handleCompteSearch` (lines 267–277): `updateCell` stores the typed text,
then `comptes.find(c => c.code.startsWith(value))` resolves the account.  When
a match is found, the second `setLignes` is built from the stale render
closure `lignes`, so it overwrites the text update and only the in-place
`compteId` mutation survives; when there is no match only the text update
lands. -/
def handleCompteSearch (comptes : List Compte) (lignes : List LigneEcriture) (row : Nat)
    (value : String) : List LigneEcriture :=
  match comptes.find? fun c => startsWith c.code value with
  | some c => lignes.set row { lignes.getD row blankLigne with compteId := some c.id }
  | none => updateCell lignes row FieldName.compte value

/-- `Enter` branch of `handleKeyDown` (lines 205–214): advance to the next row
(keeping the current column) when one exists, else append a line to the
current transaction and focus its start.  Returns the new
`(lignes, currentRow, currentCol)` state. -/
def handleEnterKey (now : String) (lignes : List LigneEcriture) (row col : Nat) :
    List LigneEcriture × Nat × Nat :=
  if row < lignes.length - 1 then (lignes, row + 1, col)
  else (addLigneToCurrentEcriture now lignes row, row + 1, 0)

/-- Grid states reachable from the initial session (`loadInitialData` starts
from `[]` and calls `addNewEcriture`) by the two line-creating operations;
`addLigneToCurrentEcriture` is only ever invoked with the in-bounds focused
row. -/
inductive Reachable : List LigneEcriture → Prop
  | init (now today : String) : Reachable (addNewEcriture now today [])
  | step_new (now today : String) (l : List LigneEcriture) :
      Reachable l → Reachable (addNewEcriture now today l)
  | step_add (now : String) (l : List LigneEcriture) (row : Nat) :
      Reachable l → row < l.length → Reachable (addLigneToCurrentEcriture now l row)

/-- Detail payload pushed into `lignes_data` (lines 360–366). -/
structure LigneData where
  compte : Nat
  libelle : String
  montant_debit : JsNum
  montant_credit : JsNum
  piece : String
deriving Repr

/-- Transaction payload built at a header line (lines 349–357).  `journal`,
`periode` and `exercice` are the already-parsed session context. -/
structure EcriturePayload where
  journal : Int
  periode : Int
  exercice : Option Int
  date_ecriture : Option String
  libelle : String
  reference : String
  lignes_data : List LigneData
deriving Repr

/-- Session context of `validerEcriture`: selected journal, period and the
open fiscal year. -/
structure Ctx where
  journal : Int
  periode : Int
  exercice : Option Int
deriving Repr

/-- Payload opened at a header line. -/
def mkPayload (ctx : Ctx) (l : LigneEcriture) : EcriturePayload :=
  { journal := ctx.journal, periode := ctx.periode, exercice := ctx.exercice,
    date_ecriture := l.date, libelle := l.libelle, reference := l.piece,
    lignes_data := [] }

/-- Detail entry appended for a line carrying a resolved account `cid`. -/
def mkLigneData (cid : Nat) (l : LigneEcriture) : LigneData :=
  { compte := cid, libelle := l.libelle, montant_debit := parseField l.debit,
    montant_credit := parseField l.credit, piece := l.piece }

/-- One step of the grouping `forEach` of `validerEcriture` (lines 341–368),
on the state (pending transaction, finished list).  At a header line with a
non-empty account code while a transaction is already pending, the source
evaluates `currentEcriture.lignes.length` — but the field is named
`lignes_data`, so this reads `.length` of `undefined` and throws a
`TypeError`, modelled as `Except.error ()`. -/
def groupStep (ctx : Ctx) (st : Option EcriturePayload × List EcriturePayload)
    (l : LigneEcriture) : Except Unit (Option EcriturePayload × List EcriturePayload) :=
  if l.isHeader = true ∧ l.compte ≠ "" then
    match st.1 with
    | some _ => Except.error ()
    | none => Except.ok (some (mkPayload ctx l), st.2)
  else
    match st.1, l.compteId with
    | some cur, some cid =>
      if l.compte ≠ "" then
        Except.ok (some { cur with lignes_data := cur.lignes_data ++ [mkLigneData cid l] }, st.2)
      else Except.ok st
    | _, _ => Except.ok st

/-- Grouping portion of `validerEcriture` (lines 338–373): scan the sequence
with `groupStep`, then flush the final pending transaction when it gathered at
least two detail lines (this final flush correctly reads `lignes_data`). -/
def validerEcriture (ctx : Ctx) (lignes : List LigneEcriture) :
    Except Unit (List EcriturePayload) := do
  let st ← lignes.foldlM (groupStep ctx) (none, [])
  match st.1 with
  | some cur =>
    if cur.lignes_data.length ≥ 2 then Except.ok (st.2 ++ [cur]) else Except.ok st.2
  | none => Except.ok st.2

/-- Success path of `validerEcriture` (lines 384–386): `setLignes([])`
followed by `addNewEcriture()`.  `addNewEcriture` closes over the render's
`lignes`, so its `setLignes([...lignes, ...newEcriture])` is computed from the
stale pre-reset value and, being the last write, overwrites the `[]`. -/
def resetAfterSuccess (now today : String) (lignes : List LigneEcriture) : List LigneEcriture :=
  addNewEcriture now today lignes

/-- All amount fields of non-header lines are blank or parseable (no `NaN`
can arise while totalling). -/
def amountsOk (lignes : List LigneEcriture) : Prop :=
  ∀ l ∈ lignes, l.isHeader = false → parseField l.debit ≠ none ∧ parseField l.credit ≠ none

/-- Debit contribution of one line to the spec-side total. -/
def dContrib (l : LigneEcriture) : ℚ :=
  if l.isHeader then 0 else (parseField l.debit).getD 0

/-- Credit contribution of one line to the spec-side total. -/
def cContrib (l : LigneEcriture) : ℚ :=
  if l.isHeader then 0 else (parseField l.credit).getD 0

/-- Row `i` lies in the transaction opened at header row `row`: no header row
strictly after `row` up to and including `i`. -/
def sameTransaction (lignes : List LigneEcriture) (row i : Nat) : Prop :=
  ∀ j, row < j → j ≤ i → (lignes.getD j blankLigne).isHeader = false

/-- Sample header line used in the concrete scenarios. -/
def exHeader (c : String) : LigneEcriture :=
  { date := some "2024-06-01", compte := c, libelle := "Achat", isHeader := true }

/-- Sample detail line used in the concrete scenarios. -/
def exDetail (cpt : String) (cid : Option Nat) (dv cv : String) : LigneEcriture :=
  { compte := cpt, compteId := cid, debit := dv, credit := cv }

/-- Sample session context. -/
def ctx0 : Ctx := ⟨1, 2, some 3⟩

lemma getD_insertIdx_of_lt (l : List LigneEcriture) (x : LigneEcriture) (k j : Nat)
    (hj : j < k) (hk : k ≤ l.length) :
    (l.insertIdx k x).getD j blankLigne = l.getD j blankLigne := by
  have hjl : j < l.length := lt_of_lt_of_le hj hk
  have hjl2 : j < (l.insertIdx k x).length := by
    rw [List.length_insertIdx k l hk]; omega
  rw [List.getD_eq_getElem?_getD, List.getD_eq_getElem?_getD,
    List.getElem?_eq_getElem hjl2, List.getElem?_eq_getElem hjl]
  simp [List.getElem_insertIdx_of_lt l x k j hj hjl]

lemma getD_insertIdx_self (l : List LigneEcriture) (x : LigneEcriture) (k : Nat)
    (hk : k ≤ l.length) :
    (l.insertIdx k x).getD k blankLigne = x := by
  have hk2 : k < (l.insertIdx k x).length := by
    rw [List.length_insertIdx k l hk]; omega
  rw [List.getD_eq_getElem?_getD, List.getElem?_eq_getElem hk2]
  simp [List.getElem_insertIdx_self l x k hk]

lemma getD_insertIdx_add_one (l : List LigneEcriture) (x : LigneEcriture) (k j : Nat)
    (hj : k ≤ j) (hjl : j < l.length) :
    (l.insertIdx k x).getD (j + 1) blankLigne = l.getD j blankLigne := by
  have hk : k ≤ l.length := le_of_lt (lt_of_le_of_lt hj hjl)
  have hj2 : j + 1 < (l.insertIdx k x).length := by
    rw [List.length_insertIdx k l hk]; omega
  rw [List.getD_eq_getElem?_getD, List.getD_eq_getElem?_getD,
    List.getElem?_eq_getElem hj2, List.getElem?_eq_getElem hjl]
  have hcomp : k + (j - k) < l.length := by omega
  have := List.getElem_insertIdx_add_succ l x k (j - k) hcomp
  have hidx : k + (j - k) + 1 = j + 1 := by omega
  have hidx2 : k + (j - k) = j := by omega
  simp only [hidx, hidx2] at this
  simp [this]

lemma findNextHeader_lower (lignes : List LigneEcriture) (i : Nat) :
    i ≤ findNextHeader lignes i := by
  induction i using findNextHeader.induct lignes with
  | case1 i h hh => rw [findNextHeader, dif_pos h, if_pos hh]
  | case2 i h hh ih => rw [findNextHeader, dif_pos h, if_neg hh]; omega
  | case3 i h => rw [findNextHeader, dif_neg h]

lemma findNextHeader_le_length (lignes : List LigneEcriture) (i : Nat)
    (h0 : i ≤ lignes.length) : findNextHeader lignes i ≤ lignes.length := by
  induction i using findNextHeader.induct lignes with
  | case1 i h hh => rw [findNextHeader, dif_pos h, if_pos hh]; omega
  | case2 i h hh ih => rw [findNextHeader, dif_pos h, if_neg hh]; exact ih (by omega)
  | case3 i h => rw [findNextHeader, dif_neg h]; omega

lemma findNextHeader_not_header (lignes : List LigneEcriture) (i : Nat) (j : Nat)
    (h1 : i ≤ j) (h2 : j < findNextHeader lignes i) :
    (lignes.getD j blankLigne).isHeader = false := by
  induction i using findNextHeader.induct lignes with
  | case1 i h hh =>
    rw [findNextHeader, dif_pos h, if_pos hh] at h2
    exact absurd h2 (Nat.not_lt.mpr h1)
  | case2 i h hh ih =>
    rw [findNextHeader, dif_pos h, if_neg hh] at h2
    rcases Nat.eq_or_lt_of_le h1 with h1e | h1l
    · subst h1e
      rw [List.getD_eq_getElem?_getD, List.getElem?_eq_getElem h]
      simpa using hh
    · exact ih h1l h2
  | case3 i h =>
    rw [findNextHeader, dif_neg h] at h2
    exact absurd h2 (Nat.not_lt.mpr h1)

lemma findNextHeader_header (lignes : List LigneEcriture) (i : Nat)
    (h : findNextHeader lignes i < lignes.length) :
    (lignes.getD (findNextHeader lignes i) blankLigne).isHeader = true := by
  induction i using findNextHeader.induct lignes with
  | case1 i hi hh =>
    rw [findNextHeader, dif_pos hi, if_pos hh] at h ⊢
    rw [List.getD_eq_getElem?_getD, List.getElem?_eq_getElem hi]
    simpa using hh
  | case2 i hi hh ih =>
    rw [findNextHeader, dif_pos hi, if_neg hh] at h ⊢
    exact ih h
  | case3 i hi =>
    rw [findNextHeader, dif_neg hi] at h
    exact absurd h hi

/-- Helper for C9: every reachable grid state is non-empty and starts with a
header line. -/
lemma reachable_head_header (l : List LigneEcriture) (h : Reachable l) :
    l ≠ [] ∧ (l.getD 0 blankLigne).isHeader = true := by
  induction h with
  | init now today => exact ⟨by simp [addNewEcriture], by simp [addNewEcriture, List.getD]⟩
  | step_new now today l _ ih =>
    refine ⟨by simp [addNewEcriture, ih.1], ?_⟩
    rw [addNewEcriture, List.getD_append _ _ _ 0 (List.length_pos.mpr ih.1)]
    exact ih.2
  | step_add now l row _ hrow ih =>
    have hk1 : 1 ≤ findNextHeader l (row + 1) :=
      le_trans (by omega) (findNextHeader_lower l (row + 1))
    have hk2 : findNextHeader l (row + 1) ≤ l.length :=
      findNextHeader_le_length l (row + 1) (by omega)
    unfold addLigneToCurrentEcriture
    refine ⟨?_, ?_⟩
    · intro hc
      have := congrArg List.length hc
      rw [List.length_insertIdx _ _ hk2] at this
      simp at this
    · rw [getD_insertIdx_of_lt _ _ _ _ (by omega) hk2]
      exact ih.2

/-- C9: starting from the initial session state, after any sequence of
start-new-transaction and append-line operations, the first line is always a
header line, and every non-header line has a preceding header line (so it
belongs to the nearest preceding header). -/
theorem claim9_header_invariant (l : List LigneEcriture) (h : Reachable l) :
    l ≠ [] ∧ (l.getD 0 blankLigne).isHeader = true ∧
      ∀ i, i < l.length → (l.getD i blankLigne).isHeader = false →
        ∃ j, j ≤ i ∧ (l.getD j blankLigne).isHeader = true := by
  obtain ⟨h1, h2⟩ := reachable_head_header l h
  exact ⟨h1, h2, fun i _ _ => ⟨0, Nat.zero_le i, h2⟩⟩

/-- Witness for C9 at the initial state. -/
theorem claim9_header_invariant_witness :
    addNewEcriture "0" "2024-06-01" [] ≠ [] ∧
      ((addNewEcriture "0" "2024-06-01" []).getD 0 blankLigne).isHeader = true :=
  ⟨(claim9_header_invariant _ (Reachable.init "0" "2024-06-01")).1,
   (claim9_header_invariant _ (Reachable.init "0" "2024-06-01")).2.1⟩

/-- C2 (failing input): the grouping scan crashes as soon as a second
account-bearing header line is reached, because the source reads
`currentEcriture.lignes.length` while the field is named `lignes_data`; with
a single transaction the ≥ 2 detail-line rule works as claimed (one valid
detail line is dropped, two are kept). -/
theorem claim2_grouping_crash :
    validerEcriture ctx0
        [exHeader "601", exDetail "601" (some 5) "100" "", exDetail "401" (some 6) "" "100",
         exHeader "602", exDetail "601" (some 5) "50" "", exDetail "401" (some 6) "" "50"]
      = Except.error ()
    ∧ validerEcriture ctx0 [exHeader "601", exDetail "601" (some 5) "100" ""]
      = Except.ok []
    ∧ validerEcriture ctx0
        [exHeader "601", exDetail "601" (some 5) "100" "", exDetail "401" (some 6) "" "100"]
      = Except.ok [{ journal := 1, periode := 2, exercice := some 3,
                     date_ecriture := some "2024-06-01", libelle := "Achat", reference := "",
                     lignes_data := [mkLigneData 5 (exDetail "601" (some 5) "100" ""),
                                     mkLigneData 6 (exDetail "401" (some 6) "" "100")] }] :=
  ⟨rfl, rfl, rfl⟩

/-- C10: a header line with an empty account-code field neither starts a new
pending transaction nor flushes the current one — the grouping step leaves
the state untouched — so the valid detail lines that follow it are appended
to the previously pending transaction and two visually separate transactions
separated by an account-less header are merged into one submitted payload. -/
theorem claim10_headerless_merge :
    (∀ (ctx : Ctx) (st : Option EcriturePayload × List EcriturePayload) (l : LigneEcriture),
        l.isHeader = true → l.compte = "" → groupStep ctx st l = Except.ok st)
    ∧ validerEcriture ctx0
        [exHeader "601", exDetail "601" (some 5) "100" "", exDetail "401" (some 6) "" "100",
         exHeader "", exDetail "601" (some 5) "50" "", exDetail "401" (some 6) "" "50"]
      = Except.ok [{ journal := 1, periode := 2, exercice := some 3,
                     date_ecriture := some "2024-06-01", libelle := "Achat", reference := "",
                     lignes_data := [mkLigneData 5 (exDetail "601" (some 5) "100" ""),
                                     mkLigneData 6 (exDetail "401" (some 6) "" "100"),
                                     mkLigneData 5 (exDetail "601" (some 5) "50" ""),
                                     mkLigneData 6 (exDetail "401" (some 6) "" "50")] }] := by
  refine ⟨fun ctx st l h1 h2 => ?_, rfl⟩
  rw [groupStep, if_neg (fun hc => hc.2 h2)]
  rcases st with ⟨cur, out⟩
  cases cur with
  | none => rfl
  | some c =>
    cases hcid : l.compteId with
    | none => rfl
    | some cid => simp [h2]

/-- Witness for C10's universally quantified part. -/
theorem claim10_headerless_merge_witness :
    groupStep ctx0 (none, []) (exHeader "") = Except.ok (none, []) :=
  claim10_headerless_merge.1 ctx0 (none, []) (exHeader "") rfl rfl

/-- C4 (failing input): after a fully successful submission the grid is NOT
reset to a single fresh transaction: `addNewEcriture` closes over the stale
pre-reset `lignes`, so its state write overwrites the `setLignes([])` and the
previous session's lines survive, with a fresh blank transaction appended. -/
theorem claim4_reset_not_fresh :
    resetAfterSuccess "9" "2024-06-02"
        [exHeader "601", exDetail "601" (some 5) "100" "", exDetail "401" (some 6) "" "100"]
      = [exHeader "601", exDetail "601" (some 5) "100" "", exDetail "401" (some 6) "" "100",
         { tempId := "9", date := some "2024-06-02", isNew := true, isHeader := true },
         { tempId := "9_1", isNew := true }]
    ∧ resetAfterSuccess "9" "2024-06-02"
        [exHeader "601", exDetail "601" (some 5) "100" "", exDetail "401" (some 6) "" "100"]
      ≠ [{ tempId := "9", date := some "2024-06-02", isNew := true, isHeader := true },
         { tempId := "9_1", isNew := true }] :=
  ⟨by decide, by decide⟩

/-- Counterexample for C5: pressing Enter with a next row present moves the
focus to the next row but keeps the current column — it does not move to
column 0 as claimed. -/
theorem claim5_enter_cex :
    handleEnterKey "t" [exHeader "601", exDetail "601" (some 5) "" "", blankLigne] 0 3
      = ([exHeader "601", exDetail "601" (some 5) "" "", blankLigne], 1, 3)
    ∧ handleEnterKey "t" [exHeader "601", exDetail "601" (some 5) "" "", blankLigne] 0 3
      ≠ ([exHeader "601", exDetail "601" (some 5) "" "", blankLigne], 1, 0) :=
  ⟨by decide, by decide⟩

/-- C5 (amended): pressing Enter at focus (row, col) moves the focus to
(row+1, col) — keeping the column — whenever a next row exists; when the
focused row is the last one it appends a new detail line (blank except for
the description defaulted from the focused row) at the end of the sequence
and moves the focus to the new row at column 0. -/
theorem claim5_enter_moves :
    (∀ (now : String) (lignes : List LigneEcriture) (row col : Nat),
        row + 1 < lignes.length →
        handleEnterKey now lignes row col = (lignes, row + 1, col))
    ∧ ∀ (now : String) (lignes : List LigneEcriture) (row col : Nat),
        lignes ≠ [] → row + 1 = lignes.length →
        handleEnterKey now lignes row col =
          (lignes ++ [{ tempId := now, libelle := (lignes.getD row blankLigne).libelle,
                        isNew := true }], row + 1, 0) := by
  constructor
  · intro now lignes row col h
    rw [handleEnterKey, if_pos (by omega)]
  · intro now lignes row col hne hlen
    have hpos : 0 < lignes.length := List.length_pos.mpr hne
    rw [handleEnterKey, if_neg (by omega)]
    unfold addLigneToCurrentEcriture
    rw [hlen, findNextHeader, dif_neg (lt_irrefl lignes.length),
      List.insertIdx_length_self]

/-- Witness for C5's amended statement. -/
theorem claim5_enter_moves_witness :
    handleEnterKey "t" [exHeader "601", blankLigne] 0 4 = ([exHeader "601", blankLigne], 1, 4)
    ∧ handleEnterKey "t" [exHeader "601", blankLigne] 1 4 =
        ([exHeader "601", blankLigne] ++
          [{ tempId := "t",
             libelle := (([exHeader "601", blankLigne] : List LigneEcriture).getD 1
               blankLigne).libelle, isNew := true }], 2, 0) :=
  ⟨claim5_enter_moves.1 "t" [exHeader "601", blankLigne] 0 4 (by decide),
   claim5_enter_moves.2 "t" [exHeader "601", blankLigne] 1 4 (by decide) (by decide)⟩

/-- Counterexample for C6: with the focus on a detail line whose description
diverges from the header's, the appended line copies the focused line's
description ("D"), not the owning header's description ("H") as claimed. -/
theorem claim6_append_cex :
    addLigneToCurrentEcriture "t" [{ libelle := "H", isHeader := true }, { libelle := "D" }] 1
      = [{ libelle := "H", isHeader := true }, { libelle := "D" },
         { tempId := "t", libelle := "D", isNew := true }]
    ∧ ((addLigneToCurrentEcriture "t"
          [{ libelle := "H", isHeader := true }, { libelle := "D" }] 1).getD 2
        blankLigne).libelle
      ≠ (([{ libelle := "H", isHeader := true }, { libelle := "D" }] :
          List LigneEcriture).getD 0 blankLigne).libelle := by
  have h : addLigneToCurrentEcriture "t"
      [{ libelle := "H", isHeader := true }, { libelle := "D" }] 1
      = [{ libelle := "H", isHeader := true }, { libelle := "D" },
         { tempId := "t", libelle := "D", isNew := true }] := by
    unfold addLigneToCurrentEcriture
    rw [show findNextHeader [{ libelle := "H", isHeader := true }, { libelle := "D" }] 2 = 2 by
      rw [findNextHeader]; simp]
    decide
  exact ⟨h, by rw [h]; decide⟩

/-- C6 (amended): the append-line operation inserts the new line at the index
of the next header line after the focused row (or at the end of the sequence
if there is none), shifting the suffix; the new line is blank except that its
description is initialized from the *currently focused* line's description
(which equals the owning header's only when the focused line's description
matches it). -/
theorem claim6_append_line (now : String) (lignes : List LigneEcriture) (row : Nat)
    (hrow : row < lignes.length) :
    row < findNextHeader lignes (row + 1)
    ∧ findNextHeader lignes (row + 1) ≤ lignes.length
    ∧ (∀ j, row < j → j < findNextHeader lignes (row + 1) →
        (lignes.getD j blankLigne).isHeader = false)
    ∧ (findNextHeader lignes (row + 1) < lignes.length →
        (lignes.getD (findNextHeader lignes (row + 1)) blankLigne).isHeader = true)
    ∧ (addLigneToCurrentEcriture now lignes row).length = lignes.length + 1
    ∧ (addLigneToCurrentEcriture now lignes row).getD (findNextHeader lignes (row + 1))
        blankLigne
      = { tempId := now, libelle := (lignes.getD row blankLigne).libelle, isNew := true }
    ∧ (∀ j, j < findNextHeader lignes (row + 1) →
        (addLigneToCurrentEcriture now lignes row).getD j blankLigne = lignes.getD j blankLigne)
    ∧ ∀ j, findNextHeader lignes (row + 1) ≤ j → j < lignes.length →
        (addLigneToCurrentEcriture now lignes row).getD (j + 1) blankLigne
          = lignes.getD j blankLigne := by
  have hk1 : row + 1 ≤ findNextHeader lignes (row + 1) := findNextHeader_lower lignes (row + 1)
  have hk2 : findNextHeader lignes (row + 1) ≤ lignes.length :=
    findNextHeader_le_length lignes (row + 1) (by omega)
  unfold addLigneToCurrentEcriture
  refine ⟨by omega, hk2, ?_, ?_, ?_, ?_, ?_, ?_⟩
  · exact fun j hj1 hj2 => findNextHeader_not_header lignes (row + 1) j (by omega) hj2
  · exact findNextHeader_header lignes (row + 1)
  · rw [List.length_insertIdx _ _ hk2]
  · exact getD_insertIdx_self lignes _ _ hk2
  · exact fun j hj => getD_insertIdx_of_lt lignes _ _ j hj hk2
  · exact fun j hj1 hj2 => getD_insertIdx_add_one lignes _ _ j hj1 hj2

/-- Witness for C6's amended statement. -/
theorem claim6_append_line_witness :
    (addLigneToCurrentEcriture "t"
        [{ libelle := "H", isHeader := true }, { libelle := "D" }] 1).length
      = ([{ libelle := "H", isHeader := true }, { libelle := "D" }] :
          List LigneEcriture).length + 1 :=
  (claim6_append_line "t" [{ libelle := "H", isHeader := true }, { libelle := "D" }] 1
    (by decide)).2.2.2.2.1

/-- Helper: `find?` returns the first element satisfying the predicate. -/
lemma find?_append_cons {α : Type} (p : α → Bool) (pre : List α) (c : α) (post : List α)
    (hpre : ∀ x ∈ pre, p x = false) (hc : p c = true) :
    List.find? p (pre ++ c :: post) = some c := by
  induction pre with
  | nil => simp [List.find?_cons, hc]
  | cons x xs ih =>
    rw [List.cons_append, List.find?_cons, hpre x (by simp)]
    exact ih fun y hy => hpre y (by simp [hy])

/-- Counterexample for C7: when no chart-of-accounts code matches the typed
prefix, a previously resolved identifier is left on the line (it is not
cleared), so the line is *not* "left with no resolved account identifier" as
claimed — and it remains included in submission grouping with the stale
account. -/
theorem claim7_resolve_cex :
    handleCompteSearch [⟨5, "601", "Achats", "CHARGE"⟩]
        [exHeader "601", exDetail "6" (some 5) "" ""] 1 "7"
      = [exHeader "601", { exDetail "6" (some 5) "" "" with compte := "7" }]
    ∧ ((handleCompteSearch [⟨5, "601", "Achats", "CHARGE"⟩]
          [exHeader "601", exDetail "6" (some 5) "" ""] 1 "7").getD 1 blankLigne).compteId
      ≠ none :=
  ⟨by decide, by decide⟩

/-- C7 (amended): resolving an account from a typed prefix stores on the
edited line the identifier of the *first* chart-of-accounts entry (in list
iteration order) whose code starts with the prefix, case-sensitively; when no
entry matches, no error is raised and only the typed text is stored — the
line's resolved identifier is left *unchanged* (in particular a line that was
never resolved stays unresolved), and a detail line without a resolved
identifier is skipped by submission grouping. -/
theorem claim7_resolve (comptes : List Compte) (lignes : List LigneEcriture) (row : Nat)
    (value : String) (hrow : row < lignes.length) :
    (∀ (pre post : List Compte) (c : Compte), comptes = pre ++ c :: post →
        (∀ x ∈ pre, startsWith x.code value = false) → startsWith c.code value = true →
        handleCompteSearch comptes lignes row value
            = lignes.set row { lignes.getD row blankLigne with compteId := some c.id }
          ∧ ((handleCompteSearch comptes lignes row value).getD row blankLigne).compteId
            = some c.id)
    ∧ ((∀ x ∈ comptes, startsWith x.code value = false) →
        handleCompteSearch comptes lignes row value
            = updateCell lignes row FieldName.compte value
          ∧ ((handleCompteSearch comptes lignes row value).getD row blankLigne).compteId
            = (lignes.getD row blankLigne).compteId)
    ∧ ∀ (ctx : Ctx) (st : Option EcriturePayload × List EcriturePayload) (l : LigneEcriture),
        l.isHeader = false → l.compteId = none → groupStep ctx st l = Except.ok st := by
  refine ⟨?_, ?_, ?_⟩
  · intro pre post c hsplit hpre hc
    have hfind : comptes.find? (fun x => startsWith x.code value) = some c := by
      rw [hsplit]; exact find?_append_cons _ pre c post hpre hc
    rw [handleCompteSearch, hfind]
    refine ⟨rfl, ?_⟩
    rw [List.getD_eq_getElem?_getD, List.getElem?_set_eq_of_lt _ hrow]
    rfl
  · intro hnone
    have hfind : comptes.find? (fun x => startsWith x.code value) = none :=
      List.find?_eq_none.mpr fun x hx => by simp [hnone x hx]
    rw [handleCompteSearch, hfind]
    refine ⟨rfl, ?_⟩
    rw [updateCell, if_neg (fun hc => FieldName.noConfusion hc.1)]
    rw [List.getD_eq_getElem?_getD, List.getElem?_set_eq_of_lt _ hrow]
    rfl
  · intro ctx st l hh hcid
    rw [groupStep, if_neg (fun hc => by rw [hh] at hc; exact Bool.noConfusion hc.1)]
    rcases st with ⟨cur, out⟩
    cases cur with
    | none => rfl
    | some c => rw [hcid]

/-- Witness for C7's amended statement. -/
theorem claim7_resolve_witness :
    ((handleCompteSearch [⟨5, "601", "Achats", "CHARGE"⟩]
        [exHeader "601", exDetail "" none "" ""] 1 "6").getD 1 blankLigne).compteId
      = some 5 :=
  ((claim7_resolve [⟨5, "601", "Achats", "CHARGE"⟩] [exHeader "601", exDetail "" none "" ""]
      1 "6" (by decide)).1 [] [] ⟨5, "601", "Achats", "CHARGE"⟩ rfl (by simp) (by decide)).2

lemma propagateLibelle_getD_noheader (o v : String) (ls : List LigneEcriture) (i : Nat)
    (hi : i < ls.length)
    (hnh : ∀ j, j ≤ i → (ls.getD j blankLigne).isHeader = false) :
    (propagateLibelle o v ls).getD i blankLigne
      = (if (ls.getD i blankLigne).libelle = "" ∨ (ls.getD i blankLigne).libelle = o
         then { ls.getD i blankLigne with libelle := v } else ls.getD i blankLigne) := by
  induction ls generalizing i with
  | nil => simp at hi
  | cons l ls ih =>
    have h0 : l.isHeader = false := by
      have := hnh 0 (Nat.zero_le i)
      simpa using this
    rw [propagateLibelle, if_neg (by simp [h0])]
    cases i with
    | zero => simp [List.getD_cons_zero]
    | succ i =>
      rw [List.getD_cons_succ, List.getD_cons_succ]
      exact ih i (by simpa using hi) fun j hj => by
        have := hnh (j + 1) (by omega)
        simpa using this

lemma propagateLibelle_getD_after_header (o v : String) (ls : List LigneEcriture) (i : Nat)
    (hh : ∃ j, j ≤ i ∧ (ls.getD j blankLigne).isHeader = true) :
    (propagateLibelle o v ls).getD i blankLigne = ls.getD i blankLigne := by
  induction ls generalizing i with
  | nil =>
    rw [propagateLibelle]
  | cons l ls ih =>
    by_cases h0 : l.isHeader = true
    · rw [propagateLibelle, if_pos h0]
    · rw [propagateLibelle, if_neg h0]
      obtain ⟨j, hj, hjh⟩ := hh
      cases j with
      | zero => rw [List.getD_cons_zero] at hjh; exact absurd hjh h0
      | succ j =>
        cases i with
        | zero => omega
        | succ i =>
          rw [List.getD_cons_succ, List.getD_cons_succ]
          rw [List.getD_cons_succ] at hjh
          exact ih i ⟨j, by omega, hjh⟩

/-- C8: updating a header line's description field to `v` replaces the
header's description, sets `v` on every following detail line of the same
transaction whose description was empty or equal to the header's previous
description — leaving manually diverging detail lines unchanged, and touching
no other field — and leaves every line of other transactions unchanged. -/
theorem claim8_libelle_propagation (lignes : List LigneEcriture) (row : Nat) (v : String)
    (hrow : row < lignes.length)
    (hheader : (lignes.getD row blankLigne).isHeader = true) :
    (updateCell lignes row FieldName.libelle v).length = lignes.length
    ∧ (∀ i, i < row →
        (updateCell lignes row FieldName.libelle v).getD i blankLigne
          = lignes.getD i blankLigne)
    ∧ (updateCell lignes row FieldName.libelle v).getD row blankLigne
        = { lignes.getD row blankLigne with libelle := v }
    ∧ (∀ i, row < i → i < lignes.length → sameTransaction lignes row i →
        (updateCell lignes row FieldName.libelle v).getD i blankLigne
          = (if (lignes.getD i blankLigne).libelle = ""
                ∨ (lignes.getD i blankLigne).libelle = (lignes.getD row blankLigne).libelle
             then { lignes.getD i blankLigne with libelle := v }
             else lignes.getD i blankLigne))
    ∧ ∀ i, row < i → ¬ sameTransaction lignes row i →
        (updateCell lignes row FieldName.libelle v).getD i blankLigne
          = lignes.getD i blankLigne := by
  rw [updateCell, if_pos ⟨rfl, hheader⟩]
  have hdrop : (lignes.set row (setField (lignes.getD row blankLigne) FieldName.libelle v)).drop
      (row + 1) = lignes.drop (row + 1) := by
    rw [List.drop_set, if_pos (by omega)]
  rw [hdrop]
  have hlentake : ((lignes.set row (setField (lignes.getD row blankLigne)
      FieldName.libelle v)).take (row + 1)).length = row + 1 := by
    rw [List.length_take, List.length_set]; omega
  have hproplen : ∀ (o w : String) (ls : List LigneEcriture),
      (propagateLibelle o w ls).length = ls.length := by
    intro o w ls
    induction ls with
    | nil => rfl
    | cons l ls ih =>
      rw [propagateLibelle]
      by_cases h : l.isHeader = true
      · rw [if_pos h]
      · rw [if_neg h]; simp [ih]
  have hgetlow : ∀ i, i ≤ row →
      (((lignes.set row (setField (lignes.getD row blankLigne) FieldName.libelle v)).take
          (row + 1)) ++ propagateLibelle (lignes.getD row blankLigne).libelle v
          (lignes.drop (row + 1))).getD i blankLigne
        = (lignes.set row (setField (lignes.getD row blankLigne) FieldName.libelle v)).getD i
            blankLigne := by
    intro i hi
    rw [List.getD_append _ _ _ i (by omega)]
    simp only [List.getD_eq_getElem?_getD, List.getElem?_take, if_pos (show i < row + 1 by omega)]
  have hgethigh : ∀ i, row < i →
      (((lignes.set row (setField (lignes.getD row blankLigne) FieldName.libelle v)).take
          (row + 1)) ++ propagateLibelle (lignes.getD row blankLigne).libelle v
          (lignes.drop (row + 1))).getD i blankLigne
        = (propagateLibelle (lignes.getD row blankLigne).libelle v
            (lignes.drop (row + 1))).getD (i - (row + 1)) blankLigne := by
    intro i hi
    rw [List.getD_append_right _ _ _ i (by omega), hlentake]
  have hdropgetD : ∀ j, (lignes.drop (row + 1)).getD j blankLigne
      = lignes.getD (row + 1 + j) blankLigne := by
    intro j
    rw [List.getD_eq_getElem?_getD, List.getD_eq_getElem?_getD, List.getElem?_drop]
  refine ⟨?_, ?_, ?_, ?_, ?_⟩
  · rw [List.length_append, hlentake, hproplen, List.length_drop]
    omega
  · intro i hi
    rw [hgetlow i (by omega), List.getD_eq_getElem?_getD,
      List.getElem?_set_ne (by omega), ← List.getD_eq_getElem?_getD]
  · rw [hgetlow row (le_refl row), List.getD_eq_getElem?_getD,
      List.getElem?_set_eq_of_lt _ hrow]
    rfl
  · intro i hi1 hi2 hsame
    rw [hgethigh i hi1]
    have hlt : i - (row + 1) < (lignes.drop (row + 1)).length := by
      rw [List.length_drop]; omega
    rw [propagateLibelle_getD_noheader _ _ _ _ hlt ?hnh]
    · rw [hdropgetD, show row + 1 + (i - (row + 1)) = i by omega]
    case hnh =>
      intro j hj
      rw [hdropgetD]
      exact hsame (row + 1 + j) (by omega) (by omega)
  · intro i hi1 hnsame
    rw [hgethigh i hi1]
    rw [sameTransaction] at hnsame
    push_neg at hnsame
    obtain ⟨j, hj1, hj2, hjh⟩ := hnsame
    rw [propagateLibelle_getD_after_header _ _ _ _ ?hex]
    · rw [hdropgetD, show row + 1 + (i - (row + 1)) = i by omega]
    case hex =>
      refine ⟨j - (row + 1), by omega, ?_⟩
      rw [hdropgetD, show row + 1 + (j - (row + 1)) = j by omega]
      simpa using hjh

/-- Witness for C8 on a concrete three-line transaction: detail with default
description follows the header, detail with a diverging description is
untouched. -/
theorem claim8_libelle_propagation_witness :
    (updateCell [{ libelle := "old", isHeader := true }, { libelle := "old" },
        { libelle := "mine" }] 0 FieldName.libelle "new").getD 1 blankLigne
      = { libelle := "new" } :=
  by
    have h := (claim8_libelle_propagation
      [{ libelle := "old", isHeader := true }, { libelle := "old" }, { libelle := "mine" }]
      0 "new" (by decide) (by decide)).2.2.2.1 1 (by decide) (by decide)
      (fun j hj1 hj2 => by have hj : j = 1 := by omega
                           subst hj; decide)
    rw [h]
    decide

lemma jsAdd_some_zero (a : JsNum) : jsAdd a (some 0) = a := by
  cases a <;> simp [jsAdd]

lemma jsAdd_zero_some (a : JsNum) : jsAdd (some 0) a = a := by
  cases a <;> simp [jsAdd]

lemma jsAdd_assoc (a b c : JsNum) : jsAdd (jsAdd a b) c = jsAdd a (jsAdd b c) := by
  cases a <;> cases b <;> cases c <;> simp [jsAdd, add_assoc]

lemma foldl_jsAdd_acc (f : LigneEcriture → JsNum) (ls : List LigneEcriture) (acc : JsNum) :
    ls.foldl (fun a l => if l.isHeader then a else jsAdd a (f l)) acc
      = jsAdd acc (ls.foldl (fun a l => if l.isHeader then a else jsAdd a (f l)) (some 0)) := by
  induction ls generalizing acc with
  | nil => simp [jsAdd_some_zero]
  | cons l ls ih =>
    rw [List.foldl_cons, List.foldl_cons, ih, ih (if l.isHeader = true then some 0 else _)]
    by_cases h : l.isHeader = true
    · rw [if_pos h, if_pos h, jsAdd_zero_some]
    · rw [if_neg h, if_neg h, jsAdd_zero_some, jsAdd_assoc]

lemma totalDebit_cons (l : LigneEcriture) (ls : List LigneEcriture) :
    totalDebit (l :: ls)
      = if l.isHeader then totalDebit ls else jsAdd (parseField l.debit) (totalDebit ls) := by
  rw [totalDebit, List.foldl_cons, foldl_jsAdd_acc]
  by_cases h : l.isHeader = true
  · rw [if_pos h, if_pos h, jsAdd_zero_some]; rfl
  · rw [if_neg h, if_neg h, jsAdd_zero_some]; rfl

lemma totalCredit_cons (l : LigneEcriture) (ls : List LigneEcriture) :
    totalCredit (l :: ls)
      = if l.isHeader then totalCredit ls else jsAdd (parseField l.credit) (totalCredit ls) := by
  rw [totalCredit, List.foldl_cons, foldl_jsAdd_acc]
  by_cases h : l.isHeader = true
  · rw [if_pos h, if_pos h, jsAdd_zero_some]; rfl
  · rw [if_neg h, if_neg h, jsAdd_zero_some]; rfl

lemma specTotalDebit_cons (l : LigneEcriture) (ls : List LigneEcriture) :
    specTotalDebit (l :: ls) = dContrib l + specTotalDebit ls := by
  rw [specTotalDebit, specTotalDebit, dContrib, List.filter_cons]
  by_cases h : l.isHeader = true
  · simp [h]
  · have hb : l.isHeader = false := by simpa using h
    simp [hb]

lemma specTotalCredit_cons (l : LigneEcriture) (ls : List LigneEcriture) :
    specTotalCredit (l :: ls) = cContrib l + specTotalCredit ls := by
  rw [specTotalCredit, specTotalCredit, cContrib, List.filter_cons]
  by_cases h : l.isHeader = true
  · simp [h]
  · have hb : l.isHeader = false := by simpa using h
    simp [hb]

lemma totalDebit_eq_spec (lignes : List LigneEcriture) (hok : amountsOk lignes) :
    totalDebit lignes = some (specTotalDebit lignes) := by
  induction lignes with
  | nil => rfl
  | cons l ls ih =>
    have hok2 : amountsOk ls := fun x hx => hok x (by simp [hx])
    rw [totalDebit_cons, specTotalDebit_cons, ih hok2, dContrib]
    by_cases h : l.isHeader = true
    · simp [h]
    · have hb : l.isHeader = false := by simpa using h
      obtain ⟨hd, _⟩ := hok l (by simp) hb
      obtain ⟨q, hq⟩ := Option.ne_none_iff_exists.mp hd
      rw [if_neg h, hb, ← hq]
      simp [jsAdd]

lemma totalCredit_eq_spec (lignes : List LigneEcriture) (hok : amountsOk lignes) :
    totalCredit lignes = some (specTotalCredit lignes) := by
  induction lignes with
  | nil => rfl
  | cons l ls ih =>
    have hok2 : amountsOk ls := fun x hx => hok x (by simp [hx])
    rw [totalCredit_cons, specTotalCredit_cons, ih hok2, cContrib]
    by_cases h : l.isHeader = true
    · simp [h]
    · have hb : l.isHeader = false := by simpa using h
      obtain ⟨_, hc⟩ := hok l (by simp) hb
      obtain ⟨q, hq⟩ := Option.ne_none_iff_exists.mp hc
      rw [if_neg h, hb, ← hq]
      simp [jsAdd]

lemma specTotalDebit_set (ls : List LigneEcriture) (i : Nat) (v : LigneEcriture)
    (hi : i < ls.length) :
    specTotalDebit (ls.set i v)
      = specTotalDebit ls - dContrib (ls.getD i blankLigne) + dContrib v := by
  induction ls generalizing i with
  | nil => simp at hi
  | cons l ls ih =>
    cases i with
    | zero =>
      rw [List.set_cons_zero, specTotalDebit_cons, specTotalDebit_cons, List.getD_cons_zero]
      ring
    | succ i =>
      rw [List.set_cons_succ, specTotalDebit_cons, specTotalDebit_cons, List.getD_cons_succ,
        ih i (by simpa using hi)]
      ring

lemma specTotalCredit_set (ls : List LigneEcriture) (i : Nat) (v : LigneEcriture)
    (hi : i < ls.length) :
    specTotalCredit (ls.set i v)
      = specTotalCredit ls - cContrib (ls.getD i blankLigne) + cContrib v := by
  induction ls generalizing i with
  | nil => simp at hi
  | cons l ls ih =>
    cases i with
    | zero =>
      rw [List.set_cons_zero, specTotalCredit_cons, specTotalCredit_cons, List.getD_cons_zero]
      ring
    | succ i =>
      rw [List.set_cons_succ, specTotalCredit_cons, specTotalCredit_cons, List.getD_cons_succ,
        ih i (by simpa using hi)]
      ring

/-- Counterexample for C3: a line whose debit field is unparseable text is not
"counted as 0" — `parseFloat` yields `NaN`, poisoning the total, so the
equilibrium flag is false although the claimed sums are 0 and balanced. -/
theorem claim3_totals_cex :
    equilibre [exHeader "601", exDetail "601" (some 5) "abc" ""] = false
    ∧ specTotalDebit [exHeader "601", exDetail "601" (some 5) "abc" ""] = 0
    ∧ specTotalCredit [exHeader "601", exDetail "601" (some 5) "abc" ""] = 0
    ∧ |specTotalDebit [exHeader "601", exDetail "601" (some 5) "abc" ""]
        - specTotalCredit [exHeader "601", exDetail "601" (some 5) "abc" ""]| < 1 / 100 := by
  have hd : specTotalDebit [exHeader "601", exDetail "601" (some 5) "abc" ""] = 0 := by
    rw [specTotalDebit]
    simp [exHeader, exDetail, show parseField "abc" = none from rfl]
  have hc : specTotalCredit [exHeader "601", exDetail "601" (some 5) "abc" ""] = 0 := by
    rw [specTotalCredit]
    simp [exHeader, exDetail, parseField]
  refine ⟨rfl, hd, hc, ?_⟩
  rw [hd, hc]
  norm_num

/-- C3 (amended): whenever every non-header line's debit and credit fields
are blank or parseable, the computed totals equal the sums of
`parseFloat(field or 0)` over non-header lines and the equilibrium flag holds
iff |total debit − total credit| < 0.01; header lines never contribute to the
totals (the totals over the sequence equal the totals over its non-header
lines).  With an unparseable amount the computed total is `NaN` and
equilibrium is false regardless of the sums (see the counterexample). -/
theorem claim3_totals (lignes : List LigneEcriture) :
    (amountsOk lignes →
      totalDebit lignes = some (specTotalDebit lignes)
      ∧ totalCredit lignes = some (specTotalCredit lignes)
      ∧ (equilibre lignes = true
          ↔ |specTotalDebit lignes - specTotalCredit lignes| < 1 / 100))
    ∧ totalDebit lignes = totalDebit (lignes.filter fun l => !l.isHeader)
    ∧ totalCredit lignes = totalCredit (lignes.filter fun l => !l.isHeader) := by
  refine ⟨fun hok => ?_, ?_, ?_⟩
  · refine ⟨totalDebit_eq_spec lignes hok, totalCredit_eq_spec lignes hok, ?_⟩
    rw [equilibre, totalDebit_eq_spec lignes hok, totalCredit_eq_spec lignes hok]
    simp [jsSub, jsAbs, jsLtC]
  · induction lignes with
    | nil => rfl
    | cons l ls ih =>
      rw [totalDebit_cons, List.filter_cons]
      by_cases h : l.isHeader = true
      · simp [h, ih]
      · have hb : l.isHeader = false := by simpa using h
        rw [if_neg h, hb]
        simp only [Bool.not_false, if_pos]
        rw [totalDebit_cons, hb, ih]
        simp
  · induction lignes with
    | nil => rfl
    | cons l ls ih =>
      rw [totalCredit_cons, List.filter_cons]
      by_cases h : l.isHeader = true
      · simp [h, ih]
      · have hb : l.isHeader = false := by simpa using h
        rw [if_neg h, hb]
        simp only [Bool.not_false, if_pos]
        rw [totalCredit_cons, hb, ih]
        simp

/-- Witness for C3 on the spec's own example amounts. -/
theorem claim3_totals_witness :
    totalDebit [exHeader "601", exDetail "601" (some 5) "100.00" "",
        exDetail "401" (some 6) "" "100.00"]
      = some (specTotalDebit [exHeader "601", exDetail "601" (some 5) "100.00" "",
          exDetail "401" (some 6) "" "100.00"]) :=
  ((claim3_totals [exHeader "601", exDetail "601" (some 5) "100.00" "",
      exDetail "401" (some 6) "" "100.00"]).1
    (by unfold amountsOk; decide)).1

lemma digitChar_toNat : ∀ d, d < 10 → (Nat.digitChar d).toNat = 48 + d := by decide

lemma digitChar_isDigit : ∀ d, d < 10 → (Nat.digitChar d).isDigit = true := by decide

lemma digitChar_not_ws : ∀ d, d < 10 →
    (Nat.digitChar d == ' ' || Nat.digitChar d == '\t' || Nat.digitChar d == '\n' ||
      Nat.digitChar d == '\r') = false := by decide

lemma digitChar_not_sign : ∀ d, d < 10 → Nat.digitChar d ≠ '-' ∧ Nat.digitChar d ≠ '+' := by
  decide

lemma digitsVal_append_one (ds : List Char) (c : Char) :
    digitsVal (ds ++ [c]) = 10 * digitsVal ds + (c.toNat - 48) := by
  rw [digitsVal, digitsVal, List.foldl_append]
  rfl

lemma natDecF_spec (fuel : Nat) : ∀ n : Nat, n < 10 ^ fuel → 0 < fuel →
    (∀ c ∈ natDecF fuel n, ∃ d, d < 10 ∧ c = Nat.digitChar d)
    ∧ digitsVal (natDecF fuel n) = n ∧ natDecF fuel n ≠ [] := by
  induction fuel with
  | zero => intro n _ h0; omega
  | succ fuel ih =>
    intro n hn _
    rw [natDecF]
    by_cases h10 : n < 10
    · rw [if_pos h10]
      refine ⟨?_, ?_, by simp⟩
      · intro c hc
        simp only [List.mem_singleton] at hc
        exact ⟨n, h10, hc⟩
      · rw [show [Nat.digitChar n] = [] ++ [Nat.digitChar n] from rfl, digitsVal_append_one,
          digitChar_toNat n h10]
        rw [show digitsVal [] = 0 from rfl]
        omega
    · rw [if_neg h10]
      have hfuel : 0 < fuel := by
        rcases Nat.eq_zero_or_pos fuel with h0 | h0
        · subst h0; rw [pow_one] at hn; omega
        · exact h0
      have hdiv : n / 10 < 10 ^ fuel := by
        rw [Nat.div_lt_iff_lt_mul (by norm_num)]
        calc n < 10 ^ (fuel + 1) := hn
          _ = 10 ^ fuel * 10 := by rw [pow_succ]
      obtain ⟨hdig, hval, hne⟩ := ih (n / 10) hdiv hfuel
      have hmod : n % 10 < 10 := Nat.mod_lt _ (by norm_num)
      refine ⟨?_, ?_, by simp⟩
      · intro c hc
        rcases List.mem_append.mp hc with h | h
        · exact hdig c h
        · simp only [List.mem_singleton] at h
          exact ⟨n % 10, hmod, h⟩
      · rw [digitsVal_append_one, hval, digitChar_toNat _ hmod]
        omega

lemma natDec_spec (n : Nat) :
    (∀ c ∈ natDec n, ∃ d, d < 10 ∧ c = Nat.digitChar d)
    ∧ digitsVal (natDec n) = n ∧ natDec n ≠ [] := by
  refine natDecF_spec (n + 1) n ?_ (Nat.succ_pos n)
  calc n < 10 ^ n := Nat.lt_pow_self (by norm_num) n
    _ ≤ 10 ^ (n + 1) := Nat.pow_le_pow_right (by norm_num) (Nat.le_succ n)

lemma natDecF_small (fuel m : Nat) (hfuel : 0 < fuel) (hm : m < 10) :
    natDecF fuel m = [Nat.digitChar m] := by
  cases fuel with
  | zero => omega
  | succ fuel => rw [natDecF, if_pos hm]

lemma takeDigits_all (ds : List Char) (hds : ∀ c ∈ ds, c.isDigit = true) :
    takeDigits ds = (ds, []) := by
  induction ds with
  | nil => rfl
  | cons c cs ih =>
    rw [takeDigits, if_pos (hds c (by simp)), ih fun x hx => hds x (by simp [hx])]

lemma takeDigits_append_cons (ds : List Char) (c : Char) (r : List Char)
    (hds : ∀ x ∈ ds, x.isDigit = true) (hc : c.isDigit = false) :
    takeDigits (ds ++ c :: r) = (ds, c :: r) := by
  induction ds with
  | nil => rw [List.nil_append, takeDigits, if_neg (by simp [hc])]
  | cons x xs ih =>
    rw [List.cons_append, takeDigits, if_pos (hds x (by simp)),
      ih fun y hy => hds y (by simp [hy])]

lemma signSplit_other (c : Char) (r : List Char) (hc1 : c ≠ '-') (hc2 : c ≠ '+') :
    signSplit (c :: r) = (1, c :: r) := by
  unfold signSplit
  split
  · next r2 heq =>
    rw [List.cons.injEq] at heq
    exact absurd heq.1 hc1
  · next r2 heq =>
    rw [List.cons.injEq] at heq
    exact absurd heq.1 hc2
  · rfl

lemma scanFloat_decimal_pos (ds1 ds2 : List Char)
    (h1 : ∀ c ∈ ds1, ∃ d, d < 10 ∧ c = Nat.digitChar d) (hne : ds1 ≠ [])
    (h2 : ∀ c ∈ ds2, ∃ d, d < 10 ∧ c = Nat.digitChar d) :
    scanFloat (ds1 ++ '.' :: ds2) = some ⟨1, digitsVal ds1, digitsVal ds2, ds2.length, 0⟩ := by
  have hdig1 : ∀ x ∈ ds1, x.isDigit = true := by
    intro x hx
    obtain ⟨d, hd, hcd⟩ := h1 x hx
    rw [hcd]
    exact digitChar_isDigit d hd
  have hdig2 : ∀ x ∈ ds2, x.isDigit = true := by
    intro x hx
    obtain ⟨d, hd, hcd⟩ := h2 x hx
    rw [hcd]
    exact digitChar_isDigit d hd
  obtain ⟨c, cs, rfl⟩ : ∃ c cs, ds1 = c :: cs := by
    cases ds1 with
    | nil => exact absurd rfl hne
    | cons c cs => exact ⟨c, cs, rfl⟩
  obtain ⟨d, hd, rfl⟩ := h1 c (by simp)
  simp only [scanFloat, List.cons_append, List.dropWhile_cons, digitChar_not_ws d hd,
    Bool.false_eq_true, if_false]
  rw [signSplit_other _ _ (digitChar_not_sign d hd).1 (digitChar_not_sign d hd).2]
  simp only
  rw [show (Nat.digitChar d :: (cs ++ '.' :: ds2)) = (Nat.digitChar d :: cs) ++ '.' :: ds2
      from rfl,
    takeDigits_append_cons _ _ _ hdig1 (by decide)]
  simp only [fracSplit]
  rw [takeDigits_all ds2 hdig2]
  simp only [List.isEmpty_cons, Bool.false_and, Bool.false_eq_true, if_false]
  rfl

lemma scanFloat_decimal_neg (ds1 ds2 : List Char)
    (h1 : ∀ c ∈ ds1, ∃ d, d < 10 ∧ c = Nat.digitChar d) (hne : ds1 ≠ [])
    (h2 : ∀ c ∈ ds2, ∃ d, d < 10 ∧ c = Nat.digitChar d) :
    scanFloat ('-' :: (ds1 ++ '.' :: ds2))
      = some ⟨-1, digitsVal ds1, digitsVal ds2, ds2.length, 0⟩ := by
  have hdig1 : ∀ x ∈ ds1, x.isDigit = true := by
    intro x hx
    obtain ⟨d, hd, hcd⟩ := h1 x hx
    rw [hcd]
    exact digitChar_isDigit d hd
  have hdig2 : ∀ x ∈ ds2, x.isDigit = true := by
    intro x hx
    obtain ⟨d, hd, hcd⟩ := h2 x hx
    rw [hcd]
    exact digitChar_isDigit d hd
  have hnee : ds1.isEmpty = false := by
    cases ds1 with
    | nil => exact absurd rfl hne
    | cons c cs => rfl
  simp only [scanFloat, List.dropWhile_cons]
  rw [if_neg (show ¬(('-' == ' ' || '-' == '\t' || '-' == '\n' || '-' == '\r') = true)
    by decide)]
  simp only [signSplit]
  rw [takeDigits_append_cons _ _ _ hdig1 (by decide)]
  simp only [fracSplit]
  rw [takeDigits_all ds2 hdig2]
  simp only [hnee, Bool.false_and, Bool.false_eq_true, if_false]
  rfl

lemma fracDigits_spec (n : Nat) :
    (∀ c ∈ (if n % 100 < 10 then '0' :: natDec (n % 100) else natDec (n % 100)),
        ∃ d, d < 10 ∧ c = Nat.digitChar d)
    ∧ digitsVal (if n % 100 < 10 then '0' :: natDec (n % 100) else natDec (n % 100)) = n % 100
    ∧ (if n % 100 < 10 then '0' :: natDec (n % 100) else natDec (n % 100)).length = 2 := by
  have hmod : n % 100 < 100 := Nat.mod_lt _ (by norm_num)
  by_cases h10 : n % 100 < 10
  · rw [if_pos h10, natDec, natDecF_small _ _ (Nat.succ_pos _) h10]
    refine ⟨?_, ?_, rfl⟩
    · intro c hc
      rcases List.mem_cons.mp hc with h | h
      · exact ⟨0, by norm_num, by rw [h]; rfl⟩
      · rw [List.mem_singleton] at h
        exact ⟨n % 100, h10, h⟩
    · rw [show ('0' :: [Nat.digitChar (n % 100)]) = ['0'] ++ [Nat.digitChar (n % 100)] from rfl,
        digitsVal_append_one, digitChar_toNat _ h10,
        show digitsVal ['0'] = 0 from rfl]
      omega
  · rw [if_neg h10, natDec, natDecF, if_neg h10,
      natDecF_small _ _ (by omega) (by omega)]
    refine ⟨?_, ?_, rfl⟩
    · intro c hc
      rcases List.mem_append.mp hc with h | h
      · rw [List.mem_singleton] at h
        exact ⟨n % 100 / 10, by omega, h⟩
      · rw [List.mem_singleton] at h
        exact ⟨n % 100 % 10, by omega, h⟩
    · rw [digitsVal_append_one,
        show [Nat.digitChar (n % 100 / 10)] = [] ++ [Nat.digitChar (n % 100 / 10)] from rfl,
        digitsVal_append_one, digitChar_toNat (n % 100 / 10) (by omega),
        digitChar_toNat (n % 100 % 10) (by omega),
        show digitsVal ([] : List Char) = 0 from rfl]
      omega

lemma parseFloat_toFixed2 (q : ℚ) :
    parseFloat (toFixed2 (some q))
      = some ((if q < 0 then (-1 : ℚ) else 1)
          * (((round (|q| * 100)).toNat : ℚ) / 100)) := by
  simp only [toFixed2]
  rw [parseFloat]
  obtain ⟨hfdd, hfdv, hfdl⟩ := fracDigits_spec (round (|q| * 100)).toNat
  obtain ⟨hd1, hv1, hne1⟩ := natDec_spec ((round (|q| * 100)).toNat / 100)
  have hcast : ((((round (|q| * 100)).toNat / 100 : Nat) : ℚ)
        + (((round (|q| * 100)).toNat % 100 : Nat) : ℚ) / 10 ^ (2 : Nat))
      = (((round (|q| * 100)).toNat : ℚ) / 100) := by
    have h1 : (100 : ℚ) * (((round (|q| * 100)).toNat / 100 : Nat) : ℚ)
        + (((round (|q| * 100)).toNat % 100 : Nat) : ℚ)
        = (((round (|q| * 100)).toNat : Nat) : ℚ) := by
      exact_mod_cast Nat.div_add_mod (round (|q| * 100)).toNat 100
    have h2 : ((10 : ℚ)) ^ (2 : Nat) = 100 := by norm_num
    rw [h2]
    field_simp
    linarith [h1]
  by_cases hq : q < 0
  · rw [if_pos hq, if_pos hq]
    rw [show ((['-'] ++ natDec ((round (|q| * 100)).toNat / 100)) ++
        '.' :: (if (round (|q| * 100)).toNat % 100 < 10
                then '0' :: natDec ((round (|q| * 100)).toNat % 100)
                else natDec ((round (|q| * 100)).toNat % 100)))
      = '-' :: (natDec ((round (|q| * 100)).toNat / 100) ++
          '.' :: (if (round (|q| * 100)).toNat % 100 < 10
                  then '0' :: natDec ((round (|q| * 100)).toNat % 100)
                  else natDec ((round (|q| * 100)).toNat % 100))) by
      rw [List.append_assoc, List.singleton_append]]
    rw [show (String.mk ('-' :: (natDec ((round (|q| * 100)).toNat / 100) ++
        '.' :: (if (round (|q| * 100)).toNat % 100 < 10
                then '0' :: natDec ((round (|q| * 100)).toNat % 100)
                else natDec ((round (|q| * 100)).toNat % 100))))).data
      = '-' :: (natDec ((round (|q| * 100)).toNat / 100) ++
          '.' :: (if (round (|q| * 100)).toNat % 100 < 10
                  then '0' :: natDec ((round (|q| * 100)).toNat % 100)
                  else natDec ((round (|q| * 100)).toNat % 100))) from rfl]
    rw [scanFloat_decimal_neg _ _ hd1 hne1 hfdd]
    rw [Option.map_some']
    rw [FloatParts.val]
    simp only
    rw [hv1, hfdv, hfdl]
    rw [zpow_zero, mul_one, hcast]
    push_cast
    ring_nf
  · rw [if_neg hq, if_neg hq]
    rw [show (([] ++ natDec ((round (|q| * 100)).toNat / 100)) ++
        '.' :: (if (round (|q| * 100)).toNat % 100 < 10
                then '0' :: natDec ((round (|q| * 100)).toNat % 100)
                else natDec ((round (|q| * 100)).toNat % 100)))
      = natDec ((round (|q| * 100)).toNat / 100) ++
          '.' :: (if (round (|q| * 100)).toNat % 100 < 10
                  then '0' :: natDec ((round (|q| * 100)).toNat % 100)
                  else natDec ((round (|q| * 100)).toNat % 100)) by
      rw [List.nil_append]]
    rw [show (String.mk (natDec ((round (|q| * 100)).toNat / 100) ++
        '.' :: (if (round (|q| * 100)).toNat % 100 < 10
                then '0' :: natDec ((round (|q| * 100)).toNat % 100)
                else natDec ((round (|q| * 100)).toNat % 100)))).data
      = natDec ((round (|q| * 100)).toNat / 100) ++
          '.' :: (if (round (|q| * 100)).toNat % 100 < 10
                  then '0' :: natDec ((round (|q| * 100)).toNat % 100)
                  else natDec ((round (|q| * 100)).toNat % 100)) from rfl]
    rw [scanFloat_decimal_pos _ _ hd1 hne1 hfdd]
    rw [Option.map_some']
    rw [FloatParts.val]
    simp only
    rw [hv1, hfdv, hfdl]
    rw [zpow_zero, mul_one, hcast]
    push_cast
    ring_nf

lemma parseField_toFixed2 (q : ℚ) :
    parseField (toFixed2 (some q))
      = some ((if q < 0 then (-1 : ℚ) else 1)
          * (((round (|q| * 100)).toNat : ℚ) / 100)) := by
  rw [parseField, if_neg ?hne, parseFloat_toFixed2]
  case hne =>
    intro h
    rw [String.ext_iff] at h
    simp only [toFixed2] at h
    rcases List.append_eq_nil.mp h with ⟨-, h2⟩
    exact List.cons_ne_nil _ _ h2

lemma toFixed2_close (q : ℚ) :
    |q - (if q < 0 then (-1 : ℚ) else 1) * (((round (|q| * 100)).toNat : ℚ) / 100)|
      < 1 / 100 := by
  have h0 : (0 : ℚ) ≤ |q| * 100 := by positivity
  have hr : (0 : ℤ) ≤ round (|q| * 100) := by
    rw [round_eq]
    refine Int.floor_nonneg.mpr ?_
    linarith
  have hcast : (((round (|q| * 100)).toNat : Nat) : ℚ) = ((round (|q| * 100) : ℤ) : ℚ) := by
    exact_mod_cast congrArg (Int.cast : ℤ → ℚ) (Int.toNat_of_nonneg hr)
  have habs : |(|q| * 100) - ((round (|q| * 100) : ℤ) : ℚ)| ≤ 1 / 2 := abs_sub_round _
  rw [hcast]
  rw [abs_le] at habs
  by_cases hq : q < 0
  · rw [if_pos hq, abs_lt]
    have hq2 : q = -|q| := by rw [abs_of_neg hq]; ring
    constructor <;> linarith
  · rw [if_neg hq, abs_lt]
    have hq2 : |q| = q := abs_of_nonneg (not_lt.mp hq)
    constructor <;> linarith

lemma find?_reverse_range (p : Nat → Bool) (n i : Nat) (hi : i < n) (hp : p i = true)
    (hlast : ∀ j, i < j → j < n → p j = false) :
    (List.range n).reverse.find? p = some i := by
  induction n with
  | zero => omega
  | succ n ih =>
    rw [List.range_succ, List.reverse_append, List.reverse_singleton, List.singleton_append,
      List.find?_cons]
    rcases Nat.lt_succ_iff_lt_or_eq.mp hi with hlt | heq
    · rw [hlast n hlt (Nat.lt_succ_self n)]
      exact ih hlt fun j h1 h2 => hlast j h1 (by omega)
    · subst heq
      rw [hp]

lemma lastTouchedIdx_eq (lignes : List LigneEcriture) (i : Nat) (hi : i < lignes.length)
    (ht : touched (lignes.getD i blankLigne) = true)
    (hlast : ∀ j, i < j → j < lignes.length → touched (lignes.getD j blankLigne) = false) :
    lastTouchedIdx lignes = some i :=
  find?_reverse_range _ lignes.length i hi ht hlast

lemma parseFloat_eval (s : String) (p : FloatParts) (q : ℚ) (h1 : scanFloat s.data = some p)
    (h2 : p.val = q) : parseFloat s = some q := by
  rw [parseFloat, h1, Option.map_some', h2]

lemma parseField_eval (s : String) (p : FloatParts) (q : ℚ) (hs : s ≠ "")
    (h1 : scanFloat s.data = some p) (h2 : p.val = q) : parseField s = some q := by
  rw [parseField, if_neg hs, parseFloat_eval s p q h1 h2]

lemma parseField_empty : parseField "" = some 0 := rfl

lemma equilibrerEcriture_eq (lignes : List LigneEcriture) (i : Nat)
    (hcond : jsLtC (jsAbs (jsSub (totalDebit lignes) (totalCredit lignes))) (1 / 100) = false)
    (hfind : lastTouchedIdx lignes = some i) :
    equilibrerEcriture lignes =
      (if jsGtZ (jsSub (totalDebit lignes) (totalCredit lignes)) = true
       then lignes.set i { lignes.getD i blankLigne with
              credit := toFixed2 (jsSub (totalDebit lignes) (totalCredit lignes)),
              debit := "" }
       else lignes.set i { lignes.getD i blankLigne with
              debit := toFixed2 (jsAbs (jsSub (totalDebit lignes) (totalCredit lignes))),
              credit := "" }) := by
  simp only [equilibrerEcriture]
  rw [hcond, if_neg Bool.false_ne_true, hfind]

lemma equilibre_set_of_close (lignes : List LigneEcriture) (i : Nat) (v : LigneEcriture)
    (hok : amountsOk lignes) (hi : i < lignes.length)
    (hvh : v.isHeader = false)
    (hvd : parseField v.debit ≠ none) (hvc : parseField v.credit ≠ none)
    (hclose : |(specTotalDebit lignes - dContrib (lignes.getD i blankLigne) + dContrib v)
        - (specTotalCredit lignes - cContrib (lignes.getD i blankLigne) + cContrib v)|
      < 1 / 100) :
    equilibre (lignes.set i v) = true := by
  have hok2 : amountsOk (lignes.set i v) := by
    intro x hx hxh
    rcases List.mem_or_eq_of_mem_set hx with h | h
    · exact hok x h hxh
    · subst h
      exact ⟨hvd, hvc⟩
  rw [equilibre, totalDebit_eq_spec _ hok2, totalCredit_eq_spec _ hok2,
    specTotalDebit_set _ _ _ hi, specTotalCredit_set _ _ _ hi]
  simp only [jsSub, jsAbs, jsLtC, decide_eq_true_eq]
  exact hclose

/-- Counterexample for C1: with detail lines debit "150" and credit "100"
(the spec's own auto-balance scenario), the gap is +50 and the operation
*overwrites* the last touched line's credit with "50.00" instead of making the
sequence balance — the resulting sequence has total debit 150 against total
credit 50 and is NOT balanced. -/
theorem claim1_auto_balance_cex :
    equilibrerEcriture
        [exHeader "601", exDetail "601" (some 5) "150" "", exDetail "401" (some 6) "" "100"]
      = [exHeader "601", exDetail "601" (some 5) "150" "",
         { exDetail "401" (some 6) "" "100" with credit := "50.00", debit := "" }]
    ∧ equilibre
        [exHeader "601", exDetail "601" (some 5) "150" "",
         { exDetail "401" (some 6) "" "100" with credit := "50.00", debit := "" }]
      = false := by
  have hgap : jsSub (totalDebit [exHeader "601", exDetail "601" (some 5) "150" "",
      exDetail "401" (some 6) "" "100"])
      (totalCredit [exHeader "601", exDetail "601" (some 5) "150" "",
        exDetail "401" (some 6) "" "100"]) = some 50 := by
    simp only [totalDebit, totalCredit, exHeader, exDetail, List.foldl_cons, List.foldl_nil,
      parseField_empty,
      parseField_eval "150" ⟨1, 150, 0, 0, 0⟩ 150 (by decide) rfl (by norm_num [FloatParts.val]),
      parseField_eval "100" ⟨1, 100, 0, 0, 0⟩ 100 (by decide) rfl (by norm_num [FloatParts.val])]
    norm_num [jsAdd, jsSub]
  constructor
  · rw [equilibrerEcriture, hgap]
    have htf : toFixed2 (some (50 : ℚ)) = "50.00" := by
      unfold toFixed2
      norm_num [round_eq]
      decide
    norm_num [jsLtC, jsAbs, jsGtZ, htf,
      show lastTouchedIdx [exHeader "601", exDetail "601" (some 5) "150" "",
        exDetail "401" (some 6) "" "100"] = some 2 from rfl]
  · rw [equilibre]
    simp only [totalDebit, totalCredit, exHeader, exDetail, List.foldl_cons, List.foldl_nil,
      parseField_empty,
      parseField_eval "150" ⟨1, 150, 0, 0, 0⟩ 150 (by decide) rfl (by norm_num [FloatParts.val]),
      parseField_eval "50.00" ⟨1, 50, 0, 2, 0⟩ 50 (by decide) rfl
        (by norm_num [FloatParts.val])]
    norm_num [jsAdd, jsSub, jsAbs, jsLtC]

/-- C1 (amended): auto-balance is a no-op when the equilibrium test already
passes.  Otherwise, with every amount field blank or parseable and `i` the
last non-header line with a non-empty account, debit or credit field, one
invocation mutates exactly line `i` — overwriting its credit with the
formatted gap and clearing its debit when the gap is positive, else
overwriting its debit with the formatted absolute gap and clearing its
credit.  The resulting sequence is balanced within the 0.01 epsilon
*provided* line `i`'s own parsed debit and credit contributions were equal
(in particular when both fields were blank); in general the overwritten
amounts are not compensated and the result need not balance (see the
counterexample). -/
theorem claim1_auto_balance :
    (∀ lignes : List LigneEcriture, equilibre lignes = true →
      equilibrerEcriture lignes = lignes)
    ∧ ∀ (lignes : List LigneEcriture) (i : Nat),
        amountsOk lignes →
        i < lignes.length →
        touched (lignes.getD i blankLigne) = true →
        (∀ j, i < j → j < lignes.length → touched (lignes.getD j blankLigne) = false) →
        ¬ |specTotalDebit lignes - specTotalCredit lignes| < 1 / 100 →
        (parseField (lignes.getD i blankLigne).debit).getD 0
          = (parseField (lignes.getD i blankLigne).credit).getD 0 →
        (equilibrerEcriture lignes
            = (if 0 < specTotalDebit lignes - specTotalCredit lignes
               then lignes.set i { lignes.getD i blankLigne with
                      credit := toFixed2 (some
                        (specTotalDebit lignes - specTotalCredit lignes)),
                      debit := "" }
               else lignes.set i { lignes.getD i blankLigne with
                      debit := toFixed2 (some
                        |specTotalDebit lignes - specTotalCredit lignes|),
                      credit := "" }))
          ∧ equilibre (equilibrerEcriture lignes) = true := by
  constructor
  · intro lignes h
    unfold equilibre at h
    simp only [equilibrerEcriture]
    rw [h, if_pos rfl]
  · intro lignes i hok hi ht hlast hgap heq
    have hD := totalDebit_eq_spec lignes hok
    have hC := totalCredit_eq_spec lignes hok
    have hsub : jsSub (totalDebit lignes) (totalCredit lignes)
        = some (specTotalDebit lignes - specTotalCredit lignes) := by
      rw [hD, hC]
      rfl
    have hcond : jsLtC (jsAbs (jsSub (totalDebit lignes) (totalCredit lignes)))
        (1 / 100) = false := by
      rw [hsub]
      simp only [jsAbs, jsLtC]
      exact decide_eq_false hgap
    have hfind := lastTouchedIdx_eq lignes i hi ht hlast
    have hnh : (lignes.getD i blankLigne).isHeader = false := by
      rw [touched, Bool.and_eq_true] at ht
      simpa using ht.1
    have hres := equilibrerEcriture_eq lignes i hcond hfind
    rw [hsub] at hres
    simp only [jsGtZ, jsAbs, decide_eq_true_eq] at hres
    refine ⟨hres, ?_⟩
    rw [hres]
    by_cases hpos : 0 < specTotalDebit lignes - specTotalCredit lignes
    · rw [if_pos hpos]
      have hval := parseField_toFixed2 (specTotalDebit lignes - specTotalCredit lignes)
      rw [if_neg (by linarith)] at hval
      have hclose := toFixed2_close (specTotalDebit lignes - specTotalCredit lignes)
      rw [if_neg (by linarith)] at hclose
      refine equilibre_set_of_close lignes i _ hok hi ?_ ?_ ?_ ?_
      · exact hnh
      · simp [parseField_empty]
      · simp [hval]
      · simp only [dContrib, cContrib, hnh, Bool.false_eq_true, if_false, parseField_empty,
          hval, Option.getD_some]
        rw [abs_lt] at hclose ⊢
        rw [heq]
        constructor <;> linarith [hclose.1, hclose.2]
    · rw [if_neg hpos]
      have hval := parseField_toFixed2 |specTotalDebit lignes - specTotalCredit lignes|
      rw [if_neg (not_lt.mpr (abs_nonneg _)), abs_abs] at hval
      have hclose := toFixed2_close |specTotalDebit lignes - specTotalCredit lignes|
      rw [if_neg (not_lt.mpr (abs_nonneg _)), abs_abs] at hclose
      have habsg : |specTotalDebit lignes - specTotalCredit lignes|
          = -(specTotalDebit lignes - specTotalCredit lignes) :=
        abs_of_nonpos (not_lt.mp hpos)
      refine equilibre_set_of_close lignes i _ hok hi ?_ ?_ ?_ ?_
      · exact hnh
      · simp [hval]
      · simp [parseField_empty]
      · simp only [dContrib, cContrib, hnh, Bool.false_eq_true, if_false, parseField_empty,
          hval, Option.getD_some]
        rw [abs_lt] at hclose ⊢
        rw [heq]
        constructor <;> linarith [hclose.1, hclose.2]

/-- Witness for C1: the no-op case on a lone balanced header, and a full
balancing run where the last touched line's amounts are blank. -/
theorem claim1_auto_balance_witness :
    equilibrerEcriture [exHeader "601"] = [exHeader "601"]
    ∧ equilibre (equilibrerEcriture [exHeader "601", exDetail "601" (some 5) "150" "",
        exDetail "401" (some 6) "" ""]) = true := by
  constructor
  · refine claim1_auto_balance.1 [exHeader "601"] ?_
    rw [equilibre]
    simp [totalDebit, totalCredit, exHeader, jsSub, jsAbs, jsLtC]
  · refine (claim1_auto_balance.2 [exHeader "601", exDetail "601" (some 5) "150" "",
      exDetail "401" (some 6) "" ""] 2 ?_ (by decide) (by decide)
      (fun j h1 h2 => by simp only [List.length_cons, List.length_nil] at h2; omega) ?_ rfl).2
    · unfold amountsOk
      decide
    · simp only [show specTotalDebit [exHeader "601", exDetail "601" (some 5) "150" "",
          exDetail "401" (some 6) "" ""]
          = dContrib (exHeader "601") + (dContrib (exDetail "601" (some 5) "150" "")
            + (dContrib (exDetail "401" (some 6) "" "") + 0)) from by
          rw [specTotalDebit_cons, specTotalDebit_cons, specTotalDebit_cons]
          rfl,
        show specTotalCredit [exHeader "601", exDetail "601" (some 5) "150" "",
          exDetail "401" (some 6) "" ""]
          = cContrib (exHeader "601") + (cContrib (exDetail "601" (some 5) "150" "")
            + (cContrib (exDetail "401" (some 6) "" "") + 0)) from by
          rw [specTotalCredit_cons, specTotalCredit_cons, specTotalCredit_cons]
          rfl]
      simp only [dContrib, cContrib, exHeader, exDetail]
      norm_num [parseField_empty,
        parseField_eval "150" ⟨1, 150, 0, 0, 0⟩ 150 (by decide) rfl
          (by norm_num [FloatParts.val])]

end SaisieEcritures
